import Mathlib

/-!
Verification of the Count-repo-projects GitHub Action (`src/index.js`)
against its natural-language specification.

The JavaScript source is shallowly embedded: the per-repository aggregation
of `listUniqueProjects` (lines 86-141) becomes pure folds over an
association list that models the insertion-ordered JS `Map`; the batch loop
of `main` (lines 206-244) becomes a fold over the repository list that
accumulates CSV rows and a trace of observable events; the file reader
`readReposFromFile` (lines 161-183) becomes a function on an abstract file
system; the throttle handlers `onRateLimit` / `onSecondaryRateLimit`
(lines 31-47) become Boolean retry decisions consulted by a retry driver.
-/

namespace CountRepoProjects

/-- A project node as returned inside `issues.nodes[].projectsV2.nodes[]`
and kept by `formatProjectDetails({ number, title })`: a stable numeric
identifier and a display title. -/
structure Project where
  number : Nat
  title : String
deriving DecidableEq, Repr

/-- The per-project record stored as the value of the `uniqueProjects`
map: `{ title: project.title, count: 0 }`, with `count` then incremented. -/
structure Occurrence where
  title : String
  count : Nat
deriving DecidableEq, Repr

/-- One issue node of the merged issues page: it carries the list of raw
project edges `node.projectsV2.nodes`. -/
structure Issue where
  projects : List Project
deriving DecidableEq, Repr

/-- The JS `Map` keyed by `project.number`, modelled as an association
list in insertion order (JS `Map` iterates in insertion order). -/
abbrev ProjectMap := List (Nat × Occurrence)

/-- `uniqueProjects.has(project.number)` (line 109). -/
def mapHas (m : ProjectMap) (n : Nat) : Bool :=
  m.any (fun e => e.1 == n)

/-- `uniqueProjects.get(project.number).count += 1` (line 117): bump the
count of the entry keyed `n`, in place, leaving every other entry alone. -/
def incrCount : ProjectMap → Nat → ProjectMap
  | [], _ => []
  | e :: rest, n =>
    if e.1 == n then (e.1, ⟨e.2.title, e.2.count + 1⟩) :: rest
    else e :: incrCount rest n

/-- The body of `projects.forEach((project) => ...)` (lines 107-118):
insert `(project.number, { title, count: 0 })` on first sight, then
increment that entry's count — so the increment happens once per raw
edge iterated, whether or not the edge is a duplicate. -/
def processProject (m : ProjectMap) (p : Project) : ProjectMap :=
  let m1 := if mapHas m p.number then m else m ++ [(p.number, ⟨p.title, 0⟩)]
  incrCount m1 p.number

/-- The body of `for (const node of response.repository.issues.nodes)`
(lines 99-119): bump `issuesWithProjectCount` when the issue has at least
one linked project, then fold every raw project edge into the map. -/
def processIssue (st : ProjectMap × Nat) (issue : Issue) : ProjectMap × Nat :=
  (issue.projects.foldl processProject st.1,
   if issue.projects.length > 0 then st.2 + 1 else st.2)

/-- The whole aggregation loop of `listUniqueProjects` over the merged
issues page: returns the `uniqueProjects` map and
`issuesWithProjectCount`, both starting empty/zero (lines 86-88). -/
def aggregate (issues : List Issue) : ProjectMap × Nat :=
  issues.foldl processIssue ([], 0)

/-- Look up the occurrence count stored for project number `n`
(0 when the project was never seen). -/
def countOf : ProjectMap → Nat → Nat
  | [], _ => 0
  | e :: rest, n => if e.1 == n then e.2.count else countOf rest n

/-- The keys of the map, in insertion order. -/
def keys (m : ProjectMap) : List Nat := m.map Prod.fst

/-- Number of raw edges of one issue that point at project `n`. -/
def edgeCountIssue (issue : Issue) (n : Nat) : Nat :=
  (issue.projects.filter (fun p => p.number == n)).length

/-- Total number of raw edges across all issues that point at project `n`. -/
def edgeCount (issues : List Issue) (n : Nat) : Nat :=
  (issues.map (fun i => edgeCountIssue i n)).sum

/-- Every project number appearing on any raw edge, in input order. -/
def allNumbers (issues : List Issue) : List Nat :=
  (issues.map (fun i => i.projects.map Project.number)).flatten

/-- Appending a fresh key, keeping an already-present key: the effect of
one `forEach` body on the key list. -/
def insertNumber (ks : List Nat) (n : Nat) : List Nat :=
  if n ∈ ks then ks else ks ++ [n]

/-! ## Throttle handlers (src/index.js lines 30-54) and the retry driver -/

/-- The `onRateLimit` handler (lines 31-41): after logging, it returns
`true` (retry) exactly when `retryCount < 1` — "only retries once"; for
`retryCount >= 1` it falls through and returns `undefined` (falsy: do not
retry). -/
def onRateLimit (retryCount : Nat) : Bool :=
  decide (retryCount < 1)

/-- The `onSecondaryRateLimit` handler (lines 42-47): "does not retry,
only logs a warning" — it returns `undefined`, a falsy value, for every
request. (The deprecated `onAbuseLimit` entry on lines 48-53 is shadowed:
the throttling plugin consults `onSecondaryRateLimit` when it is present.) -/
def onSecondaryRateLimit : Bool :=
  false

/-- One server response to one issued request. -/
inductive Response (α : Type) where
  | rateLimited (retryAfter : Nat)
  | secondaryLimited (retryAfter : Nat)
  | success (v : α)
deriving DecidableEq, Repr

/-- Outcome of a logical call as the caller sees it. -/
inductive CallResult (α : Type) where
  | ok (v : α)
  | primaryLimitError (retryAfter : Nat)
  | secondaryLimitError (retryAfter : Nat)
  | noResponse
deriving DecidableEq, Repr

/-- Modelled from the spec: the retry driver of the throttling layer
(section 4.1; the driver itself lives in the `@octokit/plugin-throttling`
dependency, not in this repository). For each throttled server response it
consults the matching handler defined in `src/index.js`, passing how many
retries have already happened; a `true` return reissues the identical
request, any falsy return surfaces the throttled response as a failure.
The scripted `responses` list gives the successive server responses to the
reissues of one logical call; the result is paired with the number of
requests actually issued. -/
def runCall {α : Type} : List (Response α) → Nat → CallResult α × Nat
  | [], _ => (.noResponse, 0)
  | .success v :: _, _ => (.ok v, 1)
  | .rateLimited ra :: rest, retryCount =>
    if onRateLimit retryCount then
      let r := runCall rest (retryCount + 1)
      (r.1, r.2 + 1)
    else (.primaryLimitError ra, 1)
  | .secondaryLimited ra :: rest, retryCount =>
    if onSecondaryRateLimit then
      let r := runCall rest (retryCount + 1)
      (r.1, r.2 + 1)
    else (.secondaryLimitError ra, 1)

/-! ## The cursor paginator (spec section 4.2) -/

/-- One page of the paginated issues query: its `pageInfo.hasNextPage`
flag and its issue nodes. -/
structure Page where
  hasNextPage : Bool
  nodes : List Issue
deriving DecidableEq, Repr

/-- Modelled from the spec: the cursor paginator of section 4.2
(implemented by the `@octokit/plugin-paginate-graphql` dependency invoked
as `octokit.graphql.paginate` on line 92, not code of this repository).
The loop issues the query, reads `pageInfo.hasNextPage`, and reissues with
the next cursor while it is true, concatenating the page's list-valued
fields; the spec records that the loop has no upper bound on page count of
its own. `paginateFuel stream fuel i` runs that loop for at most `fuel`
requests starting at page index `i`, returning the merged nodes when the
stream reported `hasNextPage: false` within the budget and `none` when the
loop is still running after `fuel` requests. -/
def paginateFuel (stream : Nat → Page) : Nat → Nat → Option (List Issue)
  | 0, _ => none
  | fuel + 1, i =>
    let p := stream i
    if p.hasNextPage then
      match paginateFuel stream fuel (i + 1) with
      | some rest => some (p.nodes ++ rest)
      | none => none
    else some p.nodes

/-- A misbehaving cursor stream: every page claims a next page. -/
def badStream : Nat → Page :=
  fun _ => ⟨true, []⟩

/-! ## Batch driver and entry point (src/index.js lines 161-244) -/

/-- What one repository's network interaction yields when it succeeds:
the merged issue nodes of the paginated issues query and the
repository-level `projectsV2.totalCount` (line 96). -/
structure FetchResult where
  issues : List Issue
  linkedProjectsCount : Nat
deriving DecidableEq, Repr

/-- The record returned by `listUniqueProjects` (line 141):
`{ uniqueProjects, issuesWithProjectCount, linkedProjectsCount }`. -/
structure RepoCounts where
  uniqueProjects : ProjectMap
  issuesWithProjectCount : Nat
  linkedProjectsCount : Nat
deriving DecidableEq, Repr

/-- The pure content of `listUniqueProjects` (lines 61-142) applied to a
successfully fetched and merged response. -/
def listUniqueProjects (r : FetchResult) : RepoCounts :=
  ⟨(aggregate r.issues).1, (aggregate r.issues).2, r.linkedProjectsCount⟩

/-- The abstract file system seen by `readReposFromFile`: whether the
path exists, whether it is a regular file, and the lines `readline`
yields from it. -/
structure FileSys where
  pathExists : Bool
  isFile : Bool
  lines : List String
deriving Repr

/-- JavaScript `String.prototype.trim` as used in `line.trim()`
(line 179): strip leading and trailing whitespace characters. -/
def jsTrim (s : String) : String :=
  ⟨((s.data.dropWhile Char.isWhitespace).reverse.dropWhile Char.isWhitespace).reverse⟩

/-- `readReposFromFile` (lines 161-183): a missing path or a non-file
path calls `core.setFailed` and returns an empty list (the run keeps
going); otherwise every line is pushed trimmed — blank lines included.
Returns the repository list and whether `setFailed` was called. -/
def readReposFromFile (f : FileSys) : List String × Bool :=
  if !f.pathExists then ([], true)
  else if !f.isFile then ([], true)
  else (f.lines.map jsTrim, false)

/-- Observable steps of a run, in order. -/
inductive Event where
  | networkCall (label : String)
  | setFailedEv
  | writeCsv
deriving DecidableEq, Repr

/-- The CSV header written first (lines 216-217). -/
def csvHeaders : String :=
  "org_name,repo_name,issues_linked_to_projects,unique_projects_linked_by_issues,projects_linked_to_repo\n"

/-- The row appended for one successfully processed repository (line 232):
`orgName,repo,issuesWithProjectCount,uniqueProjects.size,linkedProjectsCount`
followed by a newline. -/
def csvRow (org repo : String) (r : FetchResult) : String :=
  let c := listUniqueProjects r
  org ++ "," ++ repo ++ "," ++ toString c.issuesWithProjectCount ++ ","
    ++ toString c.uniqueProjects.length ++ ","
    ++ toString c.linkedProjectsCount ++ "\n"

/-- One iteration of `for (const repo of repos)` (lines 220-238): the
repository's query is issued (one network event either way); on success
its row is appended to `csvData`, on error the error is only logged and
nothing is appended. -/
def batchStep (org : String) (fetch : String → Except String FetchResult)
    (acc : String × List Event) (repo : String) : String × List Event :=
  match fetch repo with
  | .ok r => (acc.1 ++ csvRow org repo r, acc.2 ++ [.networkCall ("issues:" ++ repo)])
  | .error _ => (acc.1, acc.2 ++ [.networkCall ("issues:" ++ repo)])

/-- The whole batch loop: fold `batchStep` over the repository list
starting from an empty `csvData` and an empty trace. -/
def batchRun (org : String) (fetch : String → Except String FetchResult)
    (repos : List String) : String × List Event :=
  repos.foldl (batchStep org fetch) ("", [])

/-- The ambient world `main` runs in: the outcome of the rate-limit
query, the file system, the per-repository fetch, and the inputs. -/
structure Env where
  rateLimit : Except String Nat
  fs : FileSys
  fetch : String → Except String FetchResult
  orgName : String

/-- What a run leaves behind: the ordered event trace, the content handed
to `fs.writeFileSync` (none when never reached), and whether the run was
marked failed. -/
structure RunResult where
  trace : List Event
  csvContent : Option String
  failed : Bool

/-- `main` (lines 206-244): first `getRateLimit()` — a network call made
unconditionally; if it throws, the outer catch marks the run failed and
nothing is written. Otherwise the repos file is read (a bad path marks
the run failed but yields an empty list), the batch loop runs, and
`csvHeaders + csvData` is written. -/
def main (env : Env) : RunResult :=
  match env.rateLimit with
  | .error _ => ⟨[.networkCall "rateLimit", .setFailedEv], none, true⟩
  | .ok _ =>
    let rf := readReposFromFile env.fs
    let b := batchRun env.orgName env.fetch rf.1
    ⟨.networkCall "rateLimit" :: ((if rf.2 then [.setFailedEv] else []) ++ b.2 ++ [.writeCsv]),
     some (csvHeaders ++ b.1), rf.2⟩

/-! ## Helper lemmas about the occurrence counts -/

theorem countOf_eq_zero_of_not_has {m : ProjectMap} {n : Nat} (h : mapHas m n = false) :
    countOf m n = 0 := by
  induction m with
  | nil => rfl
  | cons e rest ih =>
    simp only [mapHas, List.any_cons, Bool.or_eq_false_iff] at h
    simp only [countOf, h.1, Bool.false_eq_true, if_false]
    exact ih (by simpa [mapHas] using h.2)

theorem countOf_incrCount_self {m : ProjectMap} {n : Nat} (h : mapHas m n = true) :
    countOf (incrCount m n) n = countOf m n + 1 := by
  induction m with
  | nil => simp [mapHas] at h
  | cons e rest ih =>
    by_cases he : (e.1 == n) = true
    · simp [incrCount, countOf, he]
    · have he3 : (e.1 == n) = false := by simpa using he
      simp only [mapHas, List.any_cons, he3, Bool.false_or] at h
      simp only [incrCount, he3, Bool.false_eq_true, if_false, countOf]
      exact ih h

theorem countOf_incrCount_ne (m : ProjectMap) {n k : Nat} (h : k ≠ n) :
    countOf (incrCount m n) k = countOf m k := by
  induction m with
  | nil => rfl
  | cons e rest ih =>
    by_cases he : (e.1 == n) = true
    · have he2 : e.1 = n := by simpa using he
      have he3 : (e.1 == k) = false := by
        simp only [he2, beq_eq_false_iff_ne]
        omega
      simp [incrCount, countOf, he, he3]
    · by_cases hk : (e.1 == k) = true
      · simp [incrCount, countOf, he, hk]
      · simp [incrCount, countOf, he, hk, ih]

theorem countOf_append_of_not_has {m : ProjectMap} (m2 : ProjectMap) {k : Nat}
    (h : mapHas m k = false) : countOf (m ++ m2) k = countOf m2 k := by
  induction m with
  | nil => rfl
  | cons e rest ih =>
    simp only [mapHas, List.any_cons, Bool.or_eq_false_iff] at h
    simp only [List.cons_append, countOf, h.1, Bool.false_eq_true, if_false]
    exact ih (by simpa [mapHas] using h.2)

theorem countOf_append_of_has {m : ProjectMap} (m2 : ProjectMap) {k : Nat}
    (h : mapHas m k = true) : countOf (m ++ m2) k = countOf m k := by
  induction m with
  | nil => simp [mapHas] at h
  | cons e rest ih =>
    by_cases he : (e.1 == k) = true
    · simp [countOf, he]
    · have he3 : (e.1 == k) = false := by simpa using he
      simp only [mapHas, List.any_cons, he3, Bool.false_or] at h
      simp only [List.cons_append, countOf, he3, Bool.false_eq_true, if_false]
      exact ih h

theorem countOf_processProject (m : ProjectMap) (p : Project) (k : Nat) :
    countOf (processProject m p) k = countOf m k + (if p.number = k then 1 else 0) := by
  unfold processProject
  by_cases hh : mapHas m p.number = true
  · simp only [hh, if_true]
    by_cases hk : p.number = k
    · subst hk; simp [countOf_incrCount_self hh]
    · simp [countOf_incrCount_ne m (fun hkk => hk hkk.symm), hk]
  · have hh2 : mapHas m p.number = false := by simpa using hh
    simp only [hh2, Bool.false_eq_true, if_false]
    by_cases hk : p.number = k
    · subst hk
      have hmem : mapHas (m ++ [(p.number, ⟨p.title, 0⟩)]) p.number = true := by
        simp [mapHas, List.any_append]
      rw [countOf_incrCount_self hmem, countOf_append_of_not_has _ hh2]
      simp [countOf, countOf_eq_zero_of_not_has hh2]
    · rw [countOf_incrCount_ne _ (fun hkk => hk hkk.symm)]
      by_cases hmk : mapHas m k = true
      · rw [countOf_append_of_has _ hmk]
        simp [hk]
      · have hmk2 : mapHas m k = false := by simpa using hmk
        have hpk : (p.number == k) = false := by simpa using hk
        rw [countOf_append_of_not_has _ hmk2]
        simp [countOf, hpk, hk, countOf_eq_zero_of_not_has hmk2]

theorem countOf_foldl_processProject (ps : List Project) (m : ProjectMap) (k : Nat) :
    countOf (ps.foldl processProject m) k
      = countOf m k + (ps.filter (fun p => p.number == k)).length := by
  induction ps generalizing m with
  | nil => simp
  | cons p rest ih =>
    simp only [List.foldl_cons, ih (processProject m p), countOf_processProject]
    by_cases hp : p.number = k
    · have : (p.number == k) = true := by simpa using hp
      simp [List.filter_cons, this, hp]
      omega
    · have : (p.number == k) = false := by simpa using hp
      simp [List.filter_cons, this, hp]

theorem countOf_foldl_processIssue (issues : List Issue) (st : ProjectMap × Nat) (k : Nat) :
    countOf (issues.foldl processIssue st).1 k = countOf st.1 k + edgeCount issues k := by
  induction issues generalizing st with
  | nil => simp [edgeCount]
  | cons i rest ih =>
    simp only [List.foldl_cons, ih, processIssue]
    rw [countOf_foldl_processProject]
    simp [edgeCount, edgeCountIssue]
    omega

/-! ## Helper lemmas about the deduplicated keys -/

theorem keys_incrCount (m : ProjectMap) (n : Nat) : keys (incrCount m n) = keys m := by
  induction m with
  | nil => rfl
  | cons e rest ih =>
    by_cases he : (e.1 == n) = true
    · simp [incrCount, keys, he]
    · have he3 : (e.1 == n) = false := by simpa using he
      simp only [incrCount, he3, Bool.false_eq_true, if_false, keys, List.map_cons]
      simpa [keys] using ih

theorem mem_keys_iff (m : ProjectMap) (n : Nat) : mapHas m n = true ↔ n ∈ keys m := by
  simp [mapHas, keys, List.any_eq_true]

theorem keys_processProject (m : ProjectMap) (p : Project) :
    keys (processProject m p) = insertNumber (keys m) p.number := by
  unfold processProject insertNumber
  by_cases hh : mapHas m p.number = true
  · have hm : p.number ∈ keys m := (mem_keys_iff m p.number).1 hh
    simp [hh, keys_incrCount, hm]
  · have h2 : mapHas m p.number = false := by simpa using hh
    have hm : p.number ∉ keys m := fun hmem => by
      have ht := (mem_keys_iff m p.number).2 hmem
      rw [ht] at h2
      simp at h2
    simp only [h2, Bool.false_eq_true, if_false]
    rw [keys_incrCount, if_neg hm]
    simp [keys]

theorem keys_foldl_processProject (ps : List Project) (m : ProjectMap) :
    keys (ps.foldl processProject m) = (ps.map Project.number).foldl insertNumber (keys m) := by
  induction ps generalizing m with
  | nil => rfl
  | cons p rest ih => simp [List.foldl_cons, ih, keys_processProject]

theorem keys_foldl_processIssue (issues : List Issue) (st : ProjectMap × Nat) :
    keys (issues.foldl processIssue st).1
      = (allNumbers issues).foldl insertNumber (keys st.1) := by
  induction issues generalizing st with
  | nil => rfl
  | cons i rest ih =>
    simp only [List.foldl_cons, ih, processIssue]
    simp [allNumbers, keys_foldl_processProject, List.foldl_append]

theorem foldl_insertNumber_spec (ns : List Nat) (ks : List Nat) (h : ks.Nodup) :
    (ns.foldl insertNumber ks).Nodup ∧
      (ns.foldl insertNumber ks).toFinset = ks.toFinset ∪ ns.toFinset := by
  induction ns generalizing ks with
  | nil => simpa using h
  | cons n rest ih =>
    simp only [List.foldl_cons, insertNumber]
    by_cases hn : n ∈ ks
    · have hr := ih ks h
      simp only [hn, if_true]
      refine ⟨hr.1, ?_⟩
      rw [hr.2, List.toFinset_cons, Finset.union_insert,
        Finset.insert_eq_self.2 (Finset.mem_union_left _ (List.mem_toFinset.2 hn))]
    · have hks : (ks ++ [n]).Nodup := by simp [List.nodup_append, h, hn]
      have hr := ih (ks ++ [n]) hks
      simp only [hn, if_false]
      refine ⟨hr.1, ?_⟩
      rw [hr.2]
      simp [List.toFinset_append, Finset.insert_eq, Finset.union_assoc]

theorem keys_aggregate (issues : List Issue) :
    keys (aggregate issues).1 = (allNumbers issues).foldl insertNumber [] :=
  keys_foldl_processIssue issues ([], 0)

/-! ## Helper lemmas about the batch driver and the paginator -/

theorem batchRun_acc (org : String) (fetch : String → Except String FetchResult)
    (repos : List String) (csv : String) (tr : List Event) :
    repos.foldl (batchStep org fetch) (csv, tr)
      = (csv ++ (batchRun org fetch repos).1, tr ++ (batchRun org fetch repos).2) := by
  induction repos generalizing csv tr with
  | nil => simp [batchRun, String.append_empty]
  | cons r rest ih =>
    cases hf : fetch r with
    | ok v =>
      simp only [batchRun, List.foldl_cons, batchStep, hf]
      rw [ih, ih]
      simp [String.append_assoc, String.empty_append, List.append_assoc]
    | error e =>
      simp only [batchRun, List.foldl_cons, batchStep, hf]
      rw [ih, ih]
      simp [String.append_assoc, String.empty_append, List.append_assoc]

theorem batchRun_cons_ok (org : String) (fetch : String → Except String FetchResult)
    (r : String) (v : FetchResult) (rest : List String) (hf : fetch r = .ok v) :
    batchRun org fetch (r :: rest)
      = (csvRow org r v ++ (batchRun org fetch rest).1,
         .networkCall ("issues:" ++ r) :: (batchRun org fetch rest).2) := by
  simp only [batchRun, List.foldl_cons, batchStep, hf]
  rw [batchRun_acc]
  simp [batchRun, String.empty_append]

theorem batchRun_cons_error (org : String) (fetch : String → Except String FetchResult)
    (r : String) (e : String) (rest : List String) (hf : fetch r = .error e) :
    batchRun org fetch (r :: rest)
      = ((batchRun org fetch rest).1,
         .networkCall ("issues:" ++ r) :: (batchRun org fetch rest).2) := by
  simp only [batchRun, List.foldl_cons, batchStep, hf]
  rw [batchRun_acc]
  simp [batchRun, String.empty_append]

theorem batchRun_append (org : String) (fetch : String → Except String FetchResult)
    (l1 l2 : List String) :
    batchRun org fetch (l1 ++ l2)
      = ((batchRun org fetch l1).1 ++ (batchRun org fetch l2).1,
         (batchRun org fetch l1).2 ++ (batchRun org fetch l2).2) := by
  simp only [batchRun, List.foldl_append]
  rw [show List.foldl (batchStep org fetch) ("", []) l1 = batchRun org fetch l1 from rfl,
    show batchRun org fetch l1 = ((batchRun org fetch l1).1, (batchRun org fetch l1).2) from rfl]
  rw [batchRun_acc]
  rfl

theorem batchRun_trace (org : String) (fetch : String → Except String FetchResult)
    (repos : List String) :
    (batchRun org fetch repos).2
      = repos.map (fun repo => Event.networkCall ("issues:" ++ repo)) := by
  induction repos with
  | nil => rfl
  | cons r rest ih =>
    cases hf : fetch r with
    | ok v => rw [batchRun_cons_ok org fetch r v rest hf]; simp [ih]
    | error e => rw [batchRun_cons_error org fetch r e rest hf]; simp [ih]

theorem paginateFuel_badStream (fuel i : Nat) : paginateFuel badStream fuel i = none := by
  induction fuel generalizing i with
  | zero => rfl
  | succ f ih => simp [paginateFuel, badStream, ih]

/-! ## Concrete inputs used by the claim theorems -/

/-- The end-to-end example repository "alpha": issue 1 links projects #5
and #7, issue 2 links project #5 only, issue 3 links none. -/
def alphaIssues : List Issue :=
  [⟨[⟨5, "Roadmap"⟩, ⟨7, "Bugs"⟩]⟩, ⟨[⟨5, "Roadmap"⟩]⟩, ⟨[]⟩]

/-- One issue that references project #5 through two raw edges. -/
def dupEdgeIssue : Issue :=
  ⟨[⟨5, "Roadmap"⟩, ⟨5, "Roadmap"⟩]⟩

/-- A run environment whose repository list file is missing. -/
def envMissingFile : Env :=
  ⟨.ok 4999, ⟨false, true, []⟩, fun _ => .ok ⟨[], 0⟩, "org"⟩

/-- A run environment whose repository list path is not a regular file. -/
def envNotFile : Env :=
  ⟨.ok 4999, ⟨true, false, ["ignored"]⟩, fun _ => .ok ⟨[], 0⟩, "org"⟩

/-- A fetch where repository "bad" fails and every other repository
succeeds with one issue linking one project. -/
def fetchMixed : String → Except String FetchResult :=
  fun repo => if repo == "bad" then .error "boom" else .ok ⟨[⟨[⟨1, "T"⟩]⟩], 2⟩

/-! ## C1 -/

/-- C1, counterexample: the claim says an issue referencing the same
project through multiple raw edges contributes exactly one increment to
that project's occurrence count. On the code, the single issue
`dupEdgeIssue` with two raw edges to project #5 leaves project #5 with an
occurrence count of 2, not 1. -/
theorem duplicate_edge_increments_twice :
    countOf (aggregate [dupEdgeIssue]).1 5 = 2 ∧
    countOf (aggregate [dupEdgeIssue]).1 5 ≠ 1 := by
  decide

/-- C1, amended: the aggregator increments a project's occurrence count
once per raw edge iterated by `projects.forEach`, not once per
issue/project pair: for every merged issues page and project number, the
stored occurrence count equals the total number of raw edges referencing
that project across all issues. -/
theorem occurrence_count_equals_raw_edge_count (issues : List Issue) (n : Nat) :
    countOf (aggregate issues).1 n = edgeCount issues n := by
  have h := countOf_foldl_processIssue issues ([], 0) n
  simpa [aggregate, countOf] using h

/-! ## C2 -/

/-- C2: a primary-rate-limit response makes the identical request be
retried exactly once (two requests issued in total when the retry
succeeds), and when the retry receives a second consecutive
primary-rate-limit response the call surfaces a failure after exactly two
requests, with no further retries whatever responses would follow. -/
theorem primary_rate_limit_retries_exactly_once {α : Type} (a b : Nat) (v : α)
    (rest1 rest2 : List (Response α)) :
    runCall (.rateLimited a :: .success v :: rest1) 0 = (.ok v, 2) ∧
    runCall (.rateLimited a :: .rateLimited b :: rest2) 0 = (.primaryLimitError b, 2) := by
  constructor <;> simp [runCall, onRateLimit]

/-! ## C3 -/

/-- C3: if processing one repository fails, that repository contributes no
row to the accumulated CSV data, and the rows of the repositories before
and after it are exactly what they would have contributed on their own:
the batch never aborts at the failure. -/
theorem failed_repository_contributes_no_row_and_rest_continue
    (org : String) (fetch : String → Except String FetchResult)
    (pre post : List String) (r e : String) (h : fetch r = .error e) :
    (batchRun org fetch (pre ++ r :: post)).1
      = (batchRun org fetch pre).1 ++ (batchRun org fetch post).1 := by
  rw [batchRun_append, batchRun_cons_error org fetch r e post h]

/-- Witness for C3 at a concrete batch: repository "bad" fails between
two succeeding repositories. -/
theorem failed_repository_contributes_no_row_and_rest_continue_witness :
    fetchMixed "bad" = .error "boom" ∧
    (batchRun "o" fetchMixed (["good1"] ++ "bad" :: ["good2"])).1
      = (batchRun "o" fetchMixed ["good1"]).1 ++ (batchRun "o" fetchMixed ["good2"]).1 :=
  ⟨rfl,
   failed_repository_contributes_no_row_and_rest_continue "o" fetchMixed
     ["good1"] ["good2"] "bad" "boom" rfl⟩

/-! ## C4 -/

/-- C4: the `uniqueProjects` keys are pairwise distinct (at most one entry
per identifier), they are exactly the distinct project numbers appearing
across all issues (deduplication is by number, titles play no role), and
the reported `unique_projects_linked_by_issues` — the size of the mapping
— equals the number of distinct project numbers. -/
theorem unique_projects_equals_distinct_identifier_count (issues : List Issue) :
    (keys (aggregate issues).1).Nodup ∧
    (keys (aggregate issues).1).toFinset = (allNumbers issues).toFinset ∧
    (aggregate issues).1.length = (allNumbers issues).toFinset.card := by
  have h := foldl_insertNumber_spec (allNumbers issues) [] List.nodup_nil
  have hk := keys_aggregate issues
  refine ⟨?_, ?_, ?_⟩
  · rw [hk]; exact h.1
  · rw [hk, h.2]; simp
  · have hlen : (aggregate issues).1.length = (keys (aggregate issues).1).length := by
      simp [keys]
    rw [hlen, ← List.toFinset_card_of_nodup (by rw [hk]; exact h.1), hk, h.2]
    simp

/-! ## C5 -/

/-- C5: on the concrete repository "alpha" — issue 1 linking projects #5
and #7, issue 2 linking #5 only, issue 3 linking none, repository-level
count 4 — the counters are issues_linked_to_projects = 2 and
unique_projects_linked_by_issues = 2, and the emitted CSV row is
`org,alpha,2,2,4`. -/
theorem alpha_example_counters_and_row :
    (listUniqueProjects ⟨alphaIssues, 4⟩).issuesWithProjectCount = 2 ∧
    (listUniqueProjects ⟨alphaIssues, 4⟩).uniqueProjects.length = 2 ∧
    (listUniqueProjects ⟨alphaIssues, 4⟩).linkedProjectsCount = 4 ∧
    csvRow "org" "alpha" ⟨alphaIssues, 4⟩ = "org,alpha,2,2,4\n" := by
  decide

/-! ## C6 -/

/-- C6: a secondary-rate-limit (abuse-detection) response is never
retried, whatever responses would follow and however many retries
happened before: exactly one request is issued and the server's throttled
response is surfaced to the caller. -/
theorem secondary_rate_limit_never_retried {α : Type} (ra : Nat)
    (rest : List (Response α)) (retryCount : Nat) :
    runCall (.secondaryLimited ra :: rest) retryCount = (.secondaryLimitError ra, 1) := by
  simp [runCall, onSecondaryRateLimit]

/-! ## C7 -/

/-- C7, counterexample: the claim says a missing repository list file
aborts the run before any network call. On the code, with the file
missing the trace still opens with the rate-limit network call (issued
before the file is even examined), and the run continues to write the
CSV instead of aborting. -/
theorem missing_file_counterexample_network_call_made :
    Event.networkCall "rateLimit" ∈ (main envMissingFile).trace ∧
    (main envMissingFile).trace = [.networkCall "rateLimit", .setFailedEv, .writeCsv] ∧
    (main envMissingFile).csvContent = some csvHeaders := by
  decide

/-- C7, amended: a missing (or non-regular-file) repository list path
marks the run failed, but only after the unconditional rate-limit network
call; the run does not abort — the batch loop runs over an empty list and
a header-only CSV is still written. -/
theorem missing_file_marks_failed_but_run_continues (env : Env) (r : Nat)
    (h : env.rateLimit = .ok r)
    (hf : env.fs.pathExists = false ∨ env.fs.isFile = false) :
    (main env).trace = [.networkCall "rateLimit", .setFailedEv, .writeCsv] ∧
    (main env).failed = true ∧
    (main env).csvContent = some csvHeaders := by
  have hrep : readReposFromFile env.fs = ([], true) := by
    unfold readReposFromFile
    rcases hf with hf | hf
    · simp [hf]
    · rw [hf]
      cases env.fs.pathExists <;> simp
  simp [main, h, hrep, batchRun, String.append_empty]

/-- Witness for C7's amended statement at the concrete environment with a
missing file. -/
theorem missing_file_marks_failed_but_run_continues_witness :
    envMissingFile.rateLimit = Except.ok 4999 ∧
    envMissingFile.fs.pathExists = false ∧
    ((main envMissingFile).trace = [.networkCall "rateLimit", .setFailedEv, .writeCsv] ∧
     (main envMissingFile).failed = true ∧
     (main envMissingFile).csvContent = some csvHeaders) :=
  ⟨rfl, rfl, missing_file_marks_failed_but_run_continues envMissingFile 4999 rfl (Or.inl rfl)⟩

/-! ## C8 -/

/-- C8, counterexample: the claim says a maximum page count bounds
pagination for every cursor stream. No such bound exists: for any
proposed ceiling `N`, the always-has-next stream is still running after
`N` requests. -/
theorem no_universal_pagination_ceiling :
    ¬ ∃ N : Nat, ∀ stream : Nat → Page, (paginateFuel stream N 0).isSome = true := by
  rintro ⟨N, hN⟩
  have h := hN badStream
  rw [paginateFuel_badStream] at h
  simp at h

/-- C8, amended: the paginator imposes no safety ceiling and has no
PaginationExhausted failure: on a misbehaving cursor stream that never
reports hasNextPage false, the pagination loop is still running after any
number of requests, from any starting page. -/
theorem misbehaving_stream_paginates_forever (fuel i : Nat) :
    paginateFuel badStream fuel i = none :=
  paginateFuel_badStream fuel i

/-! ## C9 -/

/-- C9: reading the repository list yields exactly one entry per line
with surrounding whitespace trimmed and nothing filtered out — a blank
line yields an empty-string entry — and the batch loop issues one
repository query per entry, empty-string entries included. -/
theorem repo_lines_trimmed_and_blank_lines_processed
    (lines : List String) (org : String) (fetch : String → Except String FetchResult) :
    (readReposFromFile ⟨true, true, lines⟩).1 = lines.map jsTrim ∧
    (readReposFromFile ⟨true, true, lines⟩).1.length = lines.length ∧
    (batchRun org fetch (readReposFromFile ⟨true, true, lines⟩).1).2
      = (lines.map jsTrim).map (fun repo => Event.networkCall ("issues:" ++ repo)) ∧
    readReposFromFile ⟨true, true, ["own/repo", "   ", ""]⟩ = (["own/repo", "", ""], false) := by
  refine ⟨by simp [readReposFromFile], by simp [readReposFromFile], ?_, by decide⟩
  have : (readReposFromFile ⟨true, true, lines⟩).1 = lines.map jsTrim := by
    simp [readReposFromFile]
  rw [this, batchRun_trace]

/-! ## C10 -/

/-- C10: when the repository list path does not exist or is not a regular
file, the run is marked failed but an empty repository list is returned,
the batch loop processes zero repositories (no rows, no repository
queries), and the CSV is still written containing only the header row. -/
theorem bad_path_yields_header_only_csv (env : Env) (r : Nat)
    (h : env.rateLimit = .ok r)
    (hf : env.fs.pathExists = false ∨ env.fs.isFile = false) :
    readReposFromFile env.fs = ([], true) ∧
    batchRun env.orgName env.fetch (readReposFromFile env.fs).1 = ("", []) ∧
    (main env).failed = true ∧
    (main env).csvContent = some csvHeaders := by
  have hrep : readReposFromFile env.fs = ([], true) := by
    unfold readReposFromFile
    rcases hf with hf | hf
    · simp [hf]
    · rw [hf]
      cases env.fs.pathExists <;> simp
  refine ⟨hrep, by rw [hrep]; rfl, ?_, ?_⟩
  · simp [main, h, hrep]
  · simp [main, h, hrep, batchRun, String.append_empty]

/-- Witness for C10 at a concrete environment whose path is not a regular
file. -/
theorem bad_path_yields_header_only_csv_witness :
    envNotFile.rateLimit = Except.ok 4999 ∧
    envNotFile.fs.isFile = false ∧
    (readReposFromFile envNotFile.fs = ([], true) ∧
     batchRun envNotFile.orgName envNotFile.fetch (readReposFromFile envNotFile.fs).1 = ("", []) ∧
     (main envNotFile).failed = true ∧
     (main envNotFile).csvContent = some csvHeaders) :=
  ⟨rfl, rfl, bad_path_yields_header_only_csv envNotFile 4999 rfl (Or.inr rfl)⟩

end CountRepoProjects
